import Mathlib

/-!
Shallow embedding of the Linuwu Sense fan-curve controller
(`Fan-Curve/fan-curve.py`).  Temperatures are modelled as rationals, duties
as integers; `Option` models Python `None`, and `Except` models exceptions
escaping a call.  Each definition names the source function it embeds.
-/

/-- One point of a fan curve: the dictionary `{"temp": ..., "fan": ...}`. -/
structure CurvePoint where
  temp : ℚ
  fan : ℤ
  deriving DecidableEq, Repr

/-- Python `int(x)` on a float: truncation toward zero. -/
def truncQ (q : ℚ) : ℤ := if q < 0 then ⌈q⌉ else ⌊q⌋

/-- The scan inside `FanCurve.calculate_fan_speed` (fan-curve.py lines
255-276): `prev` is `curve[i-1]` and the list argument is `curve[i:]`, so it
is entered only once `temp` exceeded `prev["temp"]`.  Falling off the end is
the `return curve[-1]["fan"]` of line 279 (`prev` is then the last point).
The hysteresis test of line 273 compares the un-truncated float target;
`int(target_fan)` of line 274 happens only on commit. -/
def calcLoop (t : ℚ) (hysteresis cur : ℤ) : CurvePoint → List CurvePoint → ℤ
  | prev, [] => prev.fan
  | prev, point :: rest =>
    if t ≤ point.temp then
      let tempRange : ℚ := point.temp - prev.temp
      let target : ℚ :=
        if 0 < tempRange then
          (prev.fan : ℚ) + ((t - prev.temp) / tempRange) * ((point.fan : ℚ) - (prev.fan : ℚ))
        else (point.fan : ℚ)
      if (hysteresis : ℚ) < |target - (cur : ℚ)| then truncQ target else cur
    else calcLoop t hysteresis cur point rest

/-- `FanCurve.calculate_fan_speed` (fan-curve.py lines 246-279).  `temp =
none` models `temp is None` (return `current_fan`, line 249); a `none`
result models the `IndexError` Python raises at line 279 (`curve[-1]`) when
the curve is empty and `temp` is not `None`.  The `hysteresis` argument is
the value `self.config.get("hysteresis", 3)` read at line 252. -/
def calculate_fan_speed (temp : Option ℚ) (curve : List CurvePoint) (cur hysteresis : ℤ) :
    Option ℤ :=
  match temp with
  | none => some cur
  | some t =>
    match curve with
    | [] => none
    | p :: rest => some (if t ≤ p.temp then p.fan else calcLoop t hysteresis cur p rest)

/-- The pre-hysteresis target stage of `FanCurve.calculate_fan_speed`: the
same scan as `calcLoop` with the commit decision of lines 272-276 removed,
returning the raw `target_fan` of lines 265-270 (the spec's
`CurveTable.target_duty` before rounding). -/
def targetLoop (t : ℚ) : CurvePoint → List CurvePoint → ℚ
  | prev, [] => (prev.fan : ℚ)
  | prev, point :: rest =>
    if t ≤ point.temp then
      let tempRange : ℚ := point.temp - prev.temp
      if 0 < tempRange then
        (prev.fan : ℚ) + ((t - prev.temp) / tempRange) * ((point.fan : ℚ) - (prev.fan : ℚ))
      else (point.fan : ℚ)
    else targetLoop t point rest

/-- The un-truncated interpolation target of `FanCurve.calculate_fan_speed`
at a non-`None` temperature (`none` only for the empty curve). -/
def targetQ (t : ℚ) : List CurvePoint → Option ℚ
  | [] => none
  | p :: rest => some (if t ≤ p.temp then (p.fan : ℚ) else targetLoop t p rest)

/-- The spec's `CurveTable.target_duty(curve, temperature, current_duty)`:
the target stage of `calculate_fan_speed` with the result truncated toward
zero, holding `current_duty` when the temperature is `None` (line 248-249). -/
def target_duty (temp : Option ℚ) (curve : List CurvePoint) (cur : ℤ) : Option ℤ :=
  match temp with
  | none => some cur
  | some t => (targetQ t curve).map truncQ

/-- A Python exception kind escaping a call of this program. -/
inductive PyExc where
  | typeError
  | indexError
  deriving DecidableEq, Repr

/-- The configuration fields of `FanCurve.config` that `run_once` reads:
`config["cpu_curve"]`, `config["gpu_curve"]` and `config["hysteresis"]`. -/
structure FanConfig where
  cpu_curve : List CurvePoint
  gpu_curve : List CurvePoint
  hysteresis : ℤ
  deriving Repr

/-- The mutable fields of `FanCurveController`: `last_cpu_fan` and
`last_gpu_fan`, both initialised to 0 (fan-curve.py lines 288-289). -/
structure CtrlState where
  last_cpu_fan : ℤ
  last_gpu_fan : ℤ
  deriving DecidableEq, Repr

/-- `FanCurveController.run_once` (fan-curve.py lines 299-324).  Inputs are
the two sensor samples of lines 302-303 and the success of the
`set_fan_speed` write of line 318; the result carries the new controller
state, the Python return value, and the list of `set_fan_speed` invocations
of the cycle (with their arguments).  `Except.error` models an exception
escaping `run_once`: `indexError` when `calculate_fan_speed` hits
`curve[-1]` on an empty curve, and `typeError` from line 321, where the
f-string formats `cpu_temp` and `gpu_temp` with `:.1f` even when one of
them is `None` (Python has already mutated `last_cpu_fan`/`last_gpu_fan` at
lines 319-320 when that raise happens; the escaping exception is what the
claims depend on). -/
def run_once (cfg : FanConfig) (cpu_temp gpu_temp : Option ℚ) (writeOk : Bool)
    (st : CtrlState) : Except PyExc (CtrlState × Bool × List (ℤ × ℤ)) :=
  if cpu_temp = none ∧ gpu_temp = none then Except.ok (st, false, [])
  else
    match calculate_fan_speed cpu_temp cfg.cpu_curve st.last_cpu_fan cfg.hysteresis with
    | none => Except.error PyExc.indexError
    | some newCpu =>
      match calculate_fan_speed gpu_temp cfg.gpu_curve st.last_gpu_fan cfg.hysteresis with
      | none => Except.error PyExc.indexError
      | some newGpu =>
        if newCpu ≠ st.last_cpu_fan ∨ newGpu ≠ st.last_gpu_fan then
          if writeOk then
            if cpu_temp = none ∨ gpu_temp = none then Except.error PyExc.typeError
            else Except.ok (⟨newCpu, newGpu⟩, true, [(newCpu, newGpu)])
          else Except.ok (st, false, [(newCpu, newGpu)])
        else Except.ok (st, false, [])

/-- The normalisation of `ThermalMonitor.read_temp` (fan-curve.py line 37):
`temp / 1000.0 if temp > 200 else temp`. -/
def normTemp (t : ℤ) : ℚ := if 200 < t then (t : ℚ) / 1000 else (t : ℚ)

/-- `ThermalMonitor.read_temp` (fan-curve.py lines 31-39).  The argument is
the outcome of opening and integer-parsing the endpoint: `none` models the
caught `FileNotFoundError`/`ValueError`/`PermissionError`. -/
def read_temp (raw : Option ℤ) : Option ℚ := raw.map normTemp

/-- `ThermalMonitor.get_cpu_temp` (fan-curve.py lines 64-74; `get_gpu_temp`
is identical): read every candidate zone, keep the non-`None` readings, and
return their Python `max`, or `None` when none succeeded. -/
def get_cpu_temp (reads : List (Option ℤ)) : Option ℚ :=
  match reads.filterMap read_temp with
  | [] => none
  | t :: ts => some (ts.foldl max t)

/-- Python `str.isspace` characters relevant to `str.strip()` and `int()`. -/
def pyIsSpace (c : Char) : Bool := c = ' ' || c = '\t' || c = '\n' || c = '\r'

/-- Python `s.strip()`: remove leading and trailing whitespace. -/
def pyStrip (l : List Char) : List Char :=
  ((l.dropWhile pyIsSpace).reverse.dropWhile pyIsSpace).reverse

/-- Python `s.split(',')` on a single-character separator. -/
def splitComma : List Char → List (List Char)
  | [] => [[]]
  | c :: rest =>
    if c = ',' then [] :: splitComma rest
    else
      match splitComma rest with
      | [] => [[c]]
      | f :: fs => (c :: f) :: fs

/-- Value of a decimal digit character, `none` for any other character. -/
def digitVal (c : Char) : Option ℕ :=
  if '0' ≤ c ∧ c ≤ '9' then some (c.toNat - '0'.toNat) else none

/-- Accumulator loop of decimal parsing: fails on the first non-digit. -/
def parseNatGo (acc : ℕ) : List Char → Option ℕ
  | [] => some acc
  | c :: cs =>
    match digitVal c with
    | some d => parseNatGo (acc * 10 + d) cs
    | none => none

/-- Decimal parsing of a non-empty all-digit character list. -/
def parseNatChars : List Char → Option ℕ
  | [] => none
  | l => parseNatGo 0 l

/-- Python `int(s)` restricted to the forms this program produces and reads:
optional sign, decimal digits, surrounding whitespace; `none` models the
`ValueError` on anything else. -/
def pyInt (l : List Char) : Option ℤ :=
  match pyStrip l with
  | '-' :: rest => (parseNatChars rest).map (fun n => -(n : ℤ))
  | '+' :: rest => (parseNatChars rest).map (fun n => (n : ℤ))
  | t => (parseNatChars t).map (fun n => (n : ℤ))

/-- Character of a decimal digit, as Python `str(n)` prints it. -/
def digitChar (d : ℕ) : Char := Char.ofNat (d + 48)

/-- Fuel-driven digit emission of Python `str(n)` for positive `n`:
most-significant digit first. -/
def natCharsAux : ℕ → ℕ → List Char
  | 0, _ => []
  | _ + 1, 0 => []
  | fuel + 1, n + 1 => natCharsAux fuel ((n + 1) / 10) ++ [digitChar ((n + 1) % 10)]

/-- Python `str(n)` for a natural number. -/
def natChars (n : ℕ) : List Char :=
  if n = 0 then ['0'] else natCharsAux n n

/-- Python `str(k)` for an integer: sign prefix for negatives. -/
def intChars (k : ℤ) : List Char :=
  if k < 0 then '-' :: natChars k.natAbs else natChars k.natAbs

/-- The payload `FanController.set_fan_speed` writes (fan-curve.py line
105): `f"{cpu_percent},{gpu_percent}"`. -/
def fan_value (cpu gpu : ℤ) : List Char := intChars cpu ++ ',' :: intChars gpu

/-- `FanController.get_fan_speed` (fan-curve.py lines 113-120).  The
argument is the outcome of reading the control endpoint (`none` models a
caught `OSError`/`IOError`).  The body strips the content, splits on the
comma, and converts the first two fields with `int`; a field that fails to
parse raises `ValueError`, which the `except` clause catches (result
`none`), but a single-field content whose field does parse reaches
`speeds[1]` and raises `IndexError`, which the clause does not catch. -/
def get_fan_speed (content : Option (List Char)) : Except PyExc (Option (ℤ × ℤ)) :=
  match content with
  | none => Except.ok none
  | some s =>
    match splitComma (pyStrip s) with
    | [] => Except.error PyExc.indexError
    | [a] =>
      match pyInt a with
      | some _ => Except.error PyExc.indexError
      | none => Except.ok none
    | a :: b :: _ =>
      match pyInt a with
      | none => Except.ok none
      | some x =>
        match pyInt b with
        | none => Except.ok none
        | some y => Except.ok (some (x, y))

/-- Truncation toward zero of an integer is that integer. -/
theorem truncQ_intCast (n : ℤ) : truncQ (n : ℚ) = n := by
  unfold truncQ
  split
  · exact Int.ceil_intCast n
  · exact Int.floor_intCast n

/-- Truncation toward zero stays between any integer bounds of its input. -/
theorem truncQ_bounds (a b : ℤ) (q : ℚ) (h1 : (a : ℚ) ≤ q) (h2 : q ≤ (b : ℚ)) :
    a ≤ truncQ q ∧ truncQ q ≤ b := by
  unfold truncQ
  split
  · exact ⟨le_trans (Int.le_floor.mpr h1) (Int.floor_le_ceil q), Int.ceil_le.mpr h2⟩
  · exact ⟨Int.le_floor.mpr h1, le_trans (Int.floor_le_ceil q) (Int.ceil_le.mpr h2)⟩

/-- In a strictly ascending chain, every member is hotter than the anchor. -/
theorem chain_temp_lt {a b : CurvePoint} {l : List CurvePoint}
    (h : List.Chain (fun p q => p.temp < q.temp) a l) (hb : b ∈ l) : a.temp < b.temp := by
  induction l generalizing a with
  | nil => cases hb
  | cons c cs ih =>
    rcases List.chain_cons.mp h with ⟨hac, hccs⟩
    rcases List.mem_cons.mp hb with rfl | hb2
    · exact hac
    · exact lt_trans hac (ih hccs hb2)

/-- In a strictly ascending chain, the anchor is at most the last element. -/
theorem temp_le_getLastD {a : CurvePoint} {l : List CurvePoint}
    (h : List.Chain (fun p q => p.temp < q.temp) a l) : a.temp ≤ (l.getLastD a).temp := by
  induction l generalizing a with
  | nil => exact le_refl _
  | cons c cs ih =>
    rcases List.chain_cons.mp h with ⟨hac, hccs⟩
    rw [List.getLastD_cons]
    exact le_of_lt (lt_of_lt_of_le hac (ih hccs))

/-- Factorisation of the fused scan of `calculate_fan_speed`: past the last
point it returns the last duty; otherwise it is the hysteresis commit of
the un-truncated `targetLoop` value, truncating only on commit. -/
theorem calcLoop_factor (t : ℚ) (band cur : ℤ) :
    ∀ (prev : CurvePoint) (l : List CurvePoint),
      List.Chain (fun p q => p.temp < q.temp) prev l → prev.temp < t →
      calcLoop t band cur prev l =
        if (l.getLastD prev).temp < t then (l.getLastD prev).fan
        else if (band : ℚ) < |targetLoop t prev l - (cur : ℚ)| then
          truncQ (targetLoop t prev l)
        else cur := by
  intro prev l
  induction l generalizing prev with
  | nil =>
    intro _ hprev
    simp only [calcLoop, targetLoop, List.getLastD]
    rw [if_pos hprev]
  | cons point rest ih =>
    intro hchain hprev
    rcases List.chain_cons.mp hchain with ⟨hpp, hrest⟩
    by_cases h : t ≤ point.temp
    · have hlast : point.temp ≤ ((point :: rest).getLastD prev).temp := by
        rw [List.getLastD_cons]
        exact temp_le_getLastD hrest
      rw [if_neg (not_lt.mpr (le_trans h hlast))]
      simp only [calcLoop, targetLoop, if_pos h]
    · have hpt : point.temp < t := not_le.mp h
      simp only [calcLoop, targetLoop, if_neg h, List.getLastD_cons]
      exact ih point hrest hpt

/-- The target scan evaluated exactly at a member breakpoint of a strictly
ascending tail yields that member's duty. -/
theorem targetLoop_breakpoint {p : CurvePoint} :
    ∀ (prev : CurvePoint) (l : List CurvePoint),
      List.Chain (fun a b => a.temp < b.temp) prev l → p ∈ l →
      targetLoop p.temp prev l = (p.fan : ℚ) := by
  intro prev l
  induction l generalizing prev with
  | nil => intro _ hp; cases hp
  | cons point rest ih =>
    intro hchain hp
    rcases List.chain_cons.mp hchain with ⟨hpp, hrest⟩
    rcases List.mem_cons.mp hp with rfl | hp2
    · have h0 : (0 : ℚ) < p.temp - prev.temp := sub_pos.mpr hpp
      simp only [targetLoop, if_pos (le_refl p.temp), if_pos h0]
      rw [div_self (ne_of_gt h0)]
      ring
    · have hlt : point.temp < p.temp := chain_temp_lt hrest hp2
      simp only [targetLoop, if_neg (not_le.mpr hlt)]
      exact ih point hrest hp2

/-- Claim C1 as stated is false: at a temperature at or below the lowest
breakpoint, `calculate_fan_speed` returns the breakpoint duty (20)
unconditionally even though the distance to the current duty (19) is within
the hysteresis band (5), where the claimed commit step would have returned
the current duty 19. -/
theorem claim1_counterexample :
    calculate_fan_speed (some 25) [⟨30, 20⟩, ⟨50, 50⟩] 19 5 = some 20 ∧
      |(20 : ℤ) - 19| ≤ 5 := by
  constructor
  · norm_num [calculate_fan_speed]
  · decide

/-- Claim C1 (amended): the hysteresis commit — return the target iff
`|target - current| > band`, else return the current duty — is realised by
`calculate_fan_speed` only for temperatures strictly above the first
breakpoint and at most the last breakpoint, where it compares the
un-truncated target and truncates the target toward zero on commit; at or
below the first breakpoint the first duty is returned unconditionally, and
above the last breakpoint the last duty is returned unconditionally. -/
theorem claim1_amended_commit_regions
    (p0 : CurvePoint) (rest : List CurvePoint)
    (hsorted : List.Chain (fun p q => p.temp < q.temp) p0 rest)
    (t : ℚ) (cur band : ℤ) :
    calculate_fan_speed (some t) (p0 :: rest) cur band =
      some (if t ≤ p0.temp then p0.fan
        else if (rest.getLastD p0).temp < t then (rest.getLastD p0).fan
        else if (band : ℚ) < |targetLoop t p0 rest - (cur : ℚ)| then
          truncQ (targetLoop t p0 rest)
        else cur) := by
  by_cases h : t ≤ p0.temp
  · simp [calculate_fan_speed, if_pos h]
  · simp only [calculate_fan_speed, if_neg h]
    rw [calcLoop_factor t band cur p0 rest hsorted (not_le.mp h)]

/-- Witness for the amended claim C1 at a concrete interior input: curve
`[(30,20),(50,50)]`, temperature 40, current 20, band 5; the un-truncated
target is 35, `|35 - 20| = 15 > 5`, so 35 is committed. -/
theorem claim1_amended_witness :
    calculate_fan_speed (some 40) [⟨30, 20⟩, ⟨50, 50⟩] 20 5 = some 35 := by
  have h := claim1_amended_commit_regions ⟨30, 20⟩ [⟨50, 50⟩]
    (List.chain_cons.mpr ⟨by norm_num, List.Chain.nil⟩) 40 20 5
  rw [h]
  norm_num [targetLoop, truncQ, lt_abs]

/-- Claim C2: for every strictly ascending curve with at least two points,
the pre-hysteresis duty computation (`target_duty`, the `target_fan` stage
of `calculate_fan_speed`) at a temperature exactly equal to a breakpoint's
temperature yields exactly that breakpoint's duty, for every value of the
current duty. -/
theorem claim2_breakpoint_exact
    (p0 : CurvePoint) (rest : List CurvePoint)
    (hsorted : List.Chain (fun p q => p.temp < q.temp) p0 rest)
    (hlen : 2 ≤ (p0 :: rest).length)
    (p : CurvePoint) (hp : p ∈ p0 :: rest) (cur : ℤ) :
    target_duty (some p.temp) (p0 :: rest) cur = some p.fan := by
  rcases List.mem_cons.mp hp with rfl | hp2
  · simp [target_duty, targetQ, truncQ_intCast]
  · have h1 : p0.temp < p.temp := chain_temp_lt hsorted hp2
    simp only [target_duty, targetQ, Option.map_some']
    rw [if_neg (not_le.mpr h1), targetLoop_breakpoint p0 rest hsorted hp2, truncQ_intCast]

/-- Witness for claim C2: curve `[(30,20),(50,50)]` at the breakpoint
temperature 50 with current duty 7 yields duty 50. -/
theorem claim2_witness :
    target_duty (some 50) [⟨30, 20⟩, ⟨50, 50⟩] 7 = some 50 := by
  exact claim2_breakpoint_exact ⟨30, 20⟩ [⟨50, 50⟩]
    (List.chain_cons.mpr ⟨by norm_num, List.Chain.nil⟩) (by simp)
    ⟨50, 50⟩ (by simp) 7

/-- Claim C3 as stated is false: on curve `[(30,20),(40,25)]` at temperature
35 the un-truncated target is 45/2 = 22.5; the code compares
`|22.5 - 20| = 2.5 > 2` and commits `int(22.5) = 22`, whereas comparing the
truncated target as the claim states gives `|22 - 20| = 2 ≤ 2`, which would
have kept the current duty 20. -/
theorem claim3_counterexample :
    calculate_fan_speed (some 35) [⟨30, 20⟩, ⟨40, 25⟩] 20 2 = some 22 ∧
      targetQ 35 [⟨30, 20⟩, ⟨40, 25⟩] = some (45 / 2) ∧
      truncQ (45 / 2) = 22 ∧ ¬ ((2 : ℤ) < |(22 : ℤ) - 20|) := by
  refine ⟨?_, ?_, ?_, by decide⟩
  · norm_num [calculate_fan_speed, calcLoop, truncQ, lt_abs]
  · norm_num [targetQ, targetLoop]
  · norm_num [truncQ]

/-- Claim C3 (amended): in the interpolated region the hysteresis decision
compares the band against the distance between the current duty and the
un-truncated interpolation target; rounding toward zero happens only to the
committed value. -/
theorem claim3_amended_truncate_on_commit
    (p0 : CurvePoint) (rest : List CurvePoint)
    (hsorted : List.Chain (fun p q => p.temp < q.temp) p0 rest)
    (t : ℚ) (h1 : p0.temp < t) (h2 : t ≤ (rest.getLastD p0).temp)
    (cur band : ℤ) :
    calculate_fan_speed (some t) (p0 :: rest) cur band =
      some (if (band : ℚ) < |targetLoop t p0 rest - (cur : ℚ)|
        then truncQ (targetLoop t p0 rest) else cur) := by
  simp only [calculate_fan_speed, if_neg (not_le.mpr h1)]
  rw [calcLoop_factor t band cur p0 rest hsorted h1, if_neg (not_lt.mpr h2)]

/-- Witness for the amended claim C3: curve `[(30,20),(50,50)]` at
temperature 42 with current duty 35 and band 5; the un-truncated target is
38, `|38 - 35| = 3 ≤ 5`, so the current duty 35 is kept. -/
theorem claim3_amended_witness :
    calculate_fan_speed (some 42) [⟨30, 20⟩, ⟨50, 50⟩] 35 5 = some 35 := by
  have h := claim3_amended_truncate_on_commit ⟨30, 20⟩ [⟨50, 50⟩]
    (List.chain_cons.mpr ⟨by norm_num, List.Chain.nil⟩) 42 (by norm_num) (by norm_num) 35 5
  rw [h]
  norm_num [targetLoop, truncQ, lt_abs]

/-- The fused scan of `calculate_fan_speed` stays within 0..100 whenever the
duties it can draw from do. -/
theorem calcLoop_range (t : ℚ) (band cur : ℤ) (hcur0 : 0 ≤ cur) (hcur1 : cur ≤ 100) :
    ∀ (prev : CurvePoint) (l : List CurvePoint),
      prev.temp < t →
      0 ≤ prev.fan → prev.fan ≤ 100 →
      (∀ p ∈ l, 0 ≤ p.fan ∧ p.fan ≤ 100) →
      0 ≤ calcLoop t band cur prev l ∧ calcLoop t band cur prev l ≤ 100 := by
  intro prev l
  induction l generalizing prev with
  | nil =>
    intro _ h0 h1 _
    simpa [calcLoop] using ⟨h0, h1⟩
  | cons point rest ih =>
    intro hprevt hp0 hp1 hl
    obtain ⟨hq0, hq1⟩ := hl point (List.mem_cons_self point rest)
    by_cases h : t ≤ point.temp
    · simp only [calcLoop, if_pos h]
      by_cases hr : (0 : ℚ) < point.temp - prev.temp
      · rw [if_pos hr]
        have hratio0 : (0 : ℚ) ≤ (t - prev.temp) / (point.temp - prev.temp) :=
          div_nonneg (le_of_lt (sub_pos.mpr hprevt)) (le_of_lt hr)
        have hratio1 : (t - prev.temp) / (point.temp - prev.temp) ≤ 1 :=
          (div_le_one hr).mpr (sub_le_sub_right h prev.temp)
        have hpf0 : (0 : ℚ) ≤ (prev.fan : ℚ) := by exact_mod_cast hp0
        have hpf1 : (prev.fan : ℚ) ≤ 100 := by exact_mod_cast hp1
        have hqf0 : (0 : ℚ) ≤ (point.fan : ℚ) := by exact_mod_cast hq0
        have hqf1 : (point.fan : ℚ) ≤ 100 := by exact_mod_cast hq1
        have htgt0 : (0 : ℚ) ≤ (prev.fan : ℚ) +
            (t - prev.temp) / (point.temp - prev.temp) * ((point.fan : ℚ) - (prev.fan : ℚ)) := by
          nlinarith [mul_nonneg hratio0 hqf0, mul_nonneg (sub_nonneg.mpr hratio1) hpf0]
        have htgt1 : (prev.fan : ℚ) +
            (t - prev.temp) / (point.temp - prev.temp) * ((point.fan : ℚ) - (prev.fan : ℚ)) ≤
              100 := by
          nlinarith [mul_nonneg (sub_nonneg.mpr hratio1) (sub_nonneg.mpr hpf1),
            mul_nonneg hratio0 (sub_nonneg.mpr hqf1)]
        split
        · refine truncQ_bounds 0 100 _ ?_ ?_
          · push_cast
            exact htgt0
          · push_cast
            exact htgt1
        · exact ⟨hcur0, hcur1⟩
      · rw [if_neg hr]
        split
        · rw [truncQ_intCast]
          exact ⟨hq0, hq1⟩
        · exact ⟨hcur0, hcur1⟩
    · simp only [calcLoop, if_neg h]
      exact ih point (not_le.mp h) hq0 hq1 (fun p hp => hl p (List.mem_cons_of_mem point hp))

/-- Claim C10: for every non-empty curve whose duties lie in 0..100, every
current duty in 0..100, every band, and every temperature (including
`None`), `calculate_fan_speed` returns an integer in 0..100. -/
theorem claim10_duty_range
    (curve : List CurvePoint) (hne : curve ≠ [])
    (hduty : ∀ p ∈ curve, 0 ≤ p.fan ∧ p.fan ≤ 100)
    (temp : Option ℚ) (cur band : ℤ) (hcur0 : 0 ≤ cur) (hcur1 : cur ≤ 100) :
    ∃ v, calculate_fan_speed temp curve cur band = some v ∧ 0 ≤ v ∧ v ≤ 100 := by
  match temp with
  | none => exact ⟨cur, rfl, hcur0, hcur1⟩
  | some t =>
    match curve, hne with
    | p :: rest, _ =>
      obtain ⟨hp0, hp1⟩ := hduty p (List.mem_cons_self p rest)
      by_cases h : t ≤ p.temp
      · exact ⟨p.fan, by simp [calculate_fan_speed, if_pos h], hp0, hp1⟩
      · obtain ⟨h0, h1⟩ := calcLoop_range t band cur hcur0 hcur1 p rest (not_le.mp h)
          hp0 hp1 (fun q hq => hduty q (List.mem_cons_of_mem p hq))
        exact ⟨_, by simp [calculate_fan_speed, if_neg h], h0, h1⟩

/-- Witness for claim C10: curve `[(30,20),(50,50)]`, temperature 40,
current 20, band 5 yields a duty in 0..100. -/
theorem claim10_witness :
    ∃ v, calculate_fan_speed (some 40) [⟨30, 20⟩, ⟨50, 50⟩] 20 5 = some v ∧
      0 ≤ v ∧ v ≤ 100 := by
  refine claim10_duty_range [⟨30, 20⟩, ⟨50, 50⟩] (by simp) ?_ (some 40) 20 5
    (by decide) (by decide)
  intro p hp
  rcases List.mem_cons.mp hp with rfl | hp2
  · exact ⟨by decide, by decide⟩
  · rcases List.mem_cons.mp hp2 with rfl | hp3
    · exact ⟨by decide, by decide⟩
    · cases hp3

/-- On a non-empty curve `calculate_fan_speed` always produces a value. -/
theorem calculate_fan_speed_isSome (temp : Option ℚ) {curve : List CurvePoint}
    (h : curve ≠ []) (cur band : ℤ) :
    ∃ v, calculate_fan_speed temp curve cur band = some v := by
  match temp, curve with
  | none, _ => exact ⟨cur, rfl⟩
  | some t, [] => exact absurd rfl h
  | some t, p :: rest => exact ⟨_, rfl⟩

/-- Claim C4 is violated by the code: with the CPU sensor reading `None`,
the GPU sensor reading 50, a successful actuator write, and a GPU duty
change, `run_once` raises an uncaught `TypeError` at the status print of
line 321 (`f"CPU: {cpu_temp:.1f}..."` with `cpu_temp = None`), which
escapes `run_once` and, in `run_daemon`, terminates the process. -/
theorem claim4_format_crash :
    run_once ⟨[⟨35, 25⟩], [⟨40, 30⟩, ⟨50, 45⟩], 2⟩ none (some 50) true ⟨0, 0⟩ =
      Except.error PyExc.typeError := by
  have h1 : calculate_fan_speed none [⟨35, 25⟩] 0 2 = some 0 := rfl
  have h2 : calculate_fan_speed (some 50) [⟨40, 30⟩, ⟨50, 45⟩] 0 2 = some 45 := by
    norm_num [calculate_fan_speed, calcLoop, truncQ, lt_abs]
  simp [run_once, h1, h2]

/-- Claim C6: when the actuator write fails, `run_once` completes normally
with the controller state exactly as it was before the cycle (the
last-committed duties are updated only under a successful write, fan-curve.py
lines 318-320). -/
theorem claim6_write_failure_keeps_state
    (cfg : FanConfig) (hc : cfg.cpu_curve ≠ []) (hg : cfg.gpu_curve ≠ [])
    (ct gt : Option ℚ) (st : CtrlState) :
    ∃ tr, run_once cfg ct gt false st = Except.ok (st, false, tr) := by
  by_cases hboth : ct = none ∧ gt = none
  · exact ⟨[], by simp [run_once, hboth]⟩
  · obtain ⟨nc, hnc⟩ := calculate_fan_speed_isSome ct hc st.last_cpu_fan cfg.hysteresis
    obtain ⟨ng, hng⟩ := calculate_fan_speed_isSome gt hg st.last_gpu_fan cfg.hysteresis
    unfold run_once
    rw [if_neg hboth, hnc, hng]
    by_cases hch : nc ≠ st.last_cpu_fan ∨ ng ≠ st.last_gpu_fan
    · exact ⟨[(nc, ng)], by simp [hch]⟩
    · exact ⟨[], by simp [hch]⟩

/-- Witness for claim C6: CPU at 50 °C would move the duty from 0, but the
write fails, so the state stays `(0, 0)` and the cycle reports `False`. -/
theorem claim6_witness :
    ∃ tr, run_once ⟨[⟨35, 25⟩], [⟨40, 30⟩], 2⟩ (some 50) none false ⟨0, 0⟩ =
      Except.ok (⟨0, 0⟩, false, tr) := by
  exact claim6_write_failure_keeps_state ⟨[⟨35, 25⟩], [⟨40, 30⟩], 2⟩ (by simp) (by simp)
    (some 50) none ⟨0, 0⟩

/-- Claim C7: in a cycle where both sensor readings are `None`, `run_once`
returns at the no-sensors guard (fan-curve.py lines 305-307): the actuator
write is never invoked (empty invocation list) and the controller state is
unchanged. -/
theorem claim7_no_sensors_no_write (cfg : FanConfig) (writeOk : Bool) (st : CtrlState) :
    run_once cfg none none writeOk st = Except.ok (st, false, []) := by
  simp [run_once]

/-- A left fold with `max` lands on a member of the seeded list. -/
theorem foldl_max_mem (t : ℚ) (ts : List ℚ) : ts.foldl max t ∈ t :: ts := by
  induction ts generalizing t with
  | nil => simp
  | cons a ts ih =>
    rw [List.foldl_cons]
    rcases List.mem_cons.mp (ih (max t a)) with h1 | h1
    · rcases max_choice t a with h2 | h2
      · rw [h1, h2]
        exact List.mem_cons_self t (a :: ts)
      · rw [h1, h2]
        exact List.mem_cons_of_mem t (List.mem_cons_self a ts)
    · exact List.mem_cons_of_mem t (List.mem_cons_of_mem a h1)

/-- A left fold with `max` bounds every member of the seeded list. -/
theorem le_foldl_max (t : ℚ) (ts : List ℚ) : ∀ y ∈ t :: ts, y ≤ ts.foldl max t := by
  induction ts generalizing t with
  | nil =>
    intro y hy
    rw [List.mem_singleton] at hy
    rw [hy]
    exact le_refl _
  | cons a ts ih =>
    intro y hy
    rw [List.foldl_cons]
    rcases List.mem_cons.mp hy with rfl | hy2
    · exact le_trans (le_max_left y a) (ih (max y a) _ (List.mem_cons_self _ _))
    · rcases List.mem_cons.mp hy2 with rfl | hy3
      · exact le_trans (le_max_right t y) (ih (max t y) _ (List.mem_cons_self _ _))
      · exact ih (max t a) y (List.mem_cons_of_mem _ hy3)

/-- Claim C8: sampling a domain returns `None` iff no candidate read
succeeded; otherwise it returns the maximum of the successfully read
candidate values, each normalised by `read_temp`'s strictly-greater-than-200
divide-by-1000 rule. -/
theorem claim8_sample_max (reads : List (Option ℤ)) :
    (get_cpu_temp reads = none ↔ ∀ r ∈ reads, r = none) ∧
    ∀ m, get_cpu_temp reads = some m →
      m ∈ reads.filterMap read_temp ∧ ∀ y ∈ reads.filterMap read_temp, y ≤ m := by
  constructor
  · rcases hfm : reads.filterMap read_temp with _ | ⟨t, ts⟩
    · simp only [get_cpu_temp, hfm]
      constructor
      · intro _ r hr
        have hn := List.filterMap_eq_nil_iff.mp hfm r hr
        exact Option.map_eq_none'.mp hn
      · intro _
        trivial
    · simp only [get_cpu_temp, hfm]
      constructor
      · intro h
        cases h
      · intro hall
        have ht : t ∈ reads.filterMap read_temp := by
          rw [hfm]
          exact List.mem_cons_self t ts
        obtain ⟨r, hr, hrt⟩ := List.mem_filterMap.mp ht
        rw [hall r hr] at hrt
        cases hrt
  · intro m hm
    rcases hfm : reads.filterMap read_temp with _ | ⟨t, ts⟩
    · rw [get_cpu_temp, hfm] at hm
      cases hm
    · rw [get_cpu_temp, hfm] at hm
      have hmeq : ts.foldl max t = m := Option.some.inj hm
      constructor
      · rw [← hmeq]
        exact foldl_max_mem t ts
      · intro y hy
        rw [← hmeq]
        exact le_foldl_max t ts y hy

/-- Witness for claim C8: candidates `[None, 48300, 50]`: 48300 is
normalised to 48.3, the maximum of `{48.3, 50}` is 50. -/
theorem claim8_witness :
    (50 : ℚ) ∈ [none, some 48300, some 50].filterMap read_temp ∧
      ∀ y ∈ [none, some 48300, some 50].filterMap read_temp, y ≤ 50 := by
  refine (claim8_sample_max [none, some 48300, some 50]).2 50 ?_
  norm_num [get_cpu_temp, read_temp, normTemp, List.filterMap_cons, max_def]

/-- Claim C5 is violated by the code: control-endpoint content `"41"` (no
comma, numeric single field) makes `get_fan_speed` raise an uncaught
`IndexError` at `speeds[1]` — the `except` clause catches only
`OSError`/`IOError`/`ValueError` — instead of returning the failure result
`None`. -/
theorem claim5_comma_free_crash :
    get_fan_speed (some "41".toList) = Except.error PyExc.indexError := by rfl

/-- Reading back the digit character of a decimal digit. -/
theorem digitVal_digitChar (d : ℕ) (h : d < 10) : digitVal (digitChar d) = some d := by
  interval_cases d <;> decide

/-- A decimal digit's character is not whitespace, a sign, or the comma. -/
theorem digitChar_plain (d : ℕ) (h : d < 10) :
    pyIsSpace (digitChar d) = false ∧ digitChar d ≠ '-' ∧ digitChar d ≠ '+' ∧
      digitChar d ≠ ',' := by
  interval_cases d <;> exact ⟨by decide, by decide, by decide, by decide⟩

/-- With enough fuel, the digit emitter produces the base-10 digits of its
argument, most significant first. -/
theorem natCharsAux_eq (fuel : ℕ) :
    ∀ n, n ≤ fuel → natCharsAux fuel n = ((Nat.digits 10 n).map digitChar).reverse := by
  induction fuel with
  | zero =>
    intro n hn
    rw [Nat.le_zero.mp hn]
    simp [natCharsAux, Nat.digits_zero]
  | succ f ih =>
    intro n hn
    match n with
    | 0 => simp [natCharsAux, Nat.digits_zero]
    | m + 1 =>
      have hdiv : (m + 1) / 10 ≤ f := by
        have := Nat.div_lt_self (Nat.succ_pos m) (by norm_num : 1 < 10)
        omega
      rw [natCharsAux, ih ((m + 1) / 10) hdiv,
        Nat.digits_def' (by norm_num : 1 < 10) (Nat.succ_pos m)]
      simp

/-- Parsing the mapped digit characters of a valid digit list accumulates
the base-10 value. -/
theorem parseNatGo_map (l : List ℕ) (hl : ∀ d ∈ l, d < 10) :
    ∀ acc, parseNatGo acc (l.map digitChar) =
      some (acc * 10 ^ l.length + Nat.ofDigits 10 l.reverse) := by
  induction l with
  | nil =>
    intro acc
    simp [parseNatGo, Nat.ofDigits]
  | cons d rest ih =>
    intro acc
    have hd : d < 10 := hl d (List.mem_cons_self d rest)
    rw [List.map_cons, parseNatGo, digitVal_digitChar d hd]
    show parseNatGo (acc * 10 + d) (List.map digitChar rest) =
      some (acc * 10 ^ (d :: rest).length + Nat.ofDigits 10 (d :: rest).reverse)
    rw [ih (fun e he => hl e (List.mem_cons_of_mem d he)) (acc * 10 + d)]
    rw [List.reverse_cons, Nat.ofDigits_append, Nat.ofDigits_singleton]
    simp only [List.length_cons, List.length_reverse]
    ring_nf

/-- Round trip of Python `str`/`int` on a natural number. -/
theorem parseNat_natChars (n : ℕ) : parseNatChars (natChars n) = some n := by
  by_cases h : n = 0
  · rw [h]
    rfl
  · have hdig : Nat.digits 10 n ≠ [] := Nat.digits_ne_nil_iff_ne_zero.mpr h
    have hchars : natChars n = ((Nat.digits 10 n).reverse.map digitChar) := by
      rw [natChars, if_neg h, natCharsAux_eq n n (le_refl n), List.map_reverse]
    rcases hrev : (Nat.digits 10 n).reverse.map digitChar with _ | ⟨c, cs⟩
    · exfalso
      apply hdig
      have := congrArg List.length hrev
      simp at this
      exact this
    · rw [hchars, hrev]
      have hpc : parseNatChars (c :: cs) = parseNatGo 0 (c :: cs) := rfl
      rw [hpc, ← hrev]
      have hlt : ∀ d ∈ (Nat.digits 10 n).reverse, d < 10 := by
        intro d hd
        exact Nat.digits_lt_base (by norm_num) (List.mem_reverse.mp hd)
      rw [parseNatGo_map (Nat.digits 10 n).reverse hlt 0]
      simp [Nat.ofDigits_digits]

/-- Every character `str(n)` emits for a natural number is a digit. -/
theorem mem_natChars (n : ℕ) (c : Char) (hc : c ∈ natChars n) :
    ∃ d, d < 10 ∧ c = digitChar d := by
  unfold natChars at hc
  split at hc
  · rw [List.mem_singleton] at hc
    exact ⟨0, by norm_num, by rw [hc]; rfl⟩
  · rw [natCharsAux_eq n n (le_refl n), List.mem_reverse] at hc
    obtain ⟨d, hd, hdc⟩ := List.mem_map.mp hc
    exact ⟨d, Nat.digits_lt_base (by norm_num) hd, hdc.symm⟩

/-- The digit emitter never returns an empty list. -/
theorem natChars_ne_nil (n : ℕ) : natChars n ≠ [] := by
  unfold natChars
  split
  · simp
  · rw [natCharsAux_eq n n (le_refl n)]
    simp
    exact Nat.digits_ne_nil_iff_ne_zero.mpr (by assumption)

/-- No character `str(k)` emits for an integer is whitespace or a comma. -/
theorem mem_intChars (k : ℤ) (c : Char) (hc : c ∈ intChars k) :
    pyIsSpace c = false ∧ c ≠ ',' := by
  unfold intChars at hc
  split at hc
  · rcases List.mem_cons.mp hc with rfl | hc2
    · exact ⟨by decide, by decide⟩
    · obtain ⟨d, hd, rfl⟩ := mem_natChars _ c hc2
      exact ⟨(digitChar_plain d hd).1, (digitChar_plain d hd).2.2.2⟩
  · obtain ⟨d, hd, rfl⟩ := mem_natChars _ c hc
    exact ⟨(digitChar_plain d hd).1, (digitChar_plain d hd).2.2.2⟩

/-- Dropping a false-everywhere prefix predicate keeps the list intact. -/
theorem dropWhile_eq_self_of_forall {l : List Char}
    (h : ∀ c ∈ l, pyIsSpace c = false) : l.dropWhile pyIsSpace = l := by
  cases l with
  | nil => rfl
  | cons a t =>
    rw [List.dropWhile_cons, h a (List.mem_cons_self a t)]
    simp

/-- Stripping a string with no whitespace characters is the identity. -/
theorem pyStrip_eq_self {l : List Char} (h : ∀ c ∈ l, pyIsSpace c = false) :
    pyStrip l = l := by
  unfold pyStrip
  rw [dropWhile_eq_self_of_forall h,
    dropWhile_eq_self_of_forall (fun c hc => h c (List.mem_reverse.mp hc)),
    List.reverse_reverse]

/-- Round trip of Python `str`/`int` on an integer. -/
theorem pyInt_intChars (k : ℤ) : pyInt (intChars k) = some k := by
  have hns : ∀ c ∈ intChars k, pyIsSpace c = false := fun c hc => (mem_intChars k c hc).1
  unfold pyInt
  rw [pyStrip_eq_self hns]
  by_cases hk : k < 0
  · rw [intChars, if_pos hk]
    show (parseNatChars (natChars k.natAbs)).map (fun n => -(n : ℤ)) = some k
    rw [parseNat_natChars]
    show some (-(k.natAbs : ℤ)) = some k
    have hval : -((k.natAbs : ℤ)) = k := by omega
    rw [hval]
  · have hsh : ∃ c cs, natChars k.natAbs = c :: cs := by
      rcases hn : natChars k.natAbs with _ | ⟨c, cs⟩
      · exact absurd hn (natChars_ne_nil _)
      · exact ⟨c, cs, rfl⟩
    obtain ⟨c, cs, hcs⟩ := hsh
    have hcdig : ∃ d, d < 10 ∧ c = digitChar d :=
      mem_natChars k.natAbs c (by rw [hcs]; exact List.mem_cons_self c cs)
    obtain ⟨d, hd, rfl⟩ := hcdig
    rw [intChars, if_neg hk, hcs]
    split
    · rename_i rest heq
      exact absurd (List.head_eq_of_cons_eq heq) (digitChar_plain d hd).2.1
    · rename_i rest heq
      exact absurd (List.head_eq_of_cons_eq heq) (digitChar_plain d hd).2.2.1
    · rw [← hcs, parseNat_natChars]
      show some ((k.natAbs : ℤ)) = some k
      have hval : ((k.natAbs : ℤ)) = k := by omega
      rw [hval]

/-- Splitting a comma-free string yields the single field. -/
theorem splitComma_no_comma : ∀ {l : List Char}, (∀ c ∈ l, c ≠ ',') →
    splitComma l = [l] := by
  intro l
  induction l with
  | nil => intro _; rfl
  | cons c rest ih =>
    intro h
    rw [splitComma, if_neg (h c (List.mem_cons_self c rest)),
      ih (fun e he => h e (List.mem_cons_of_mem c he))]

/-- Splitting around the first comma separates the comma-free prefix. -/
theorem splitComma_append {xs : List Char} (ys : List Char)
    (h : ∀ c ∈ xs, c ≠ ',') :
    splitComma (xs ++ ',' :: ys) = xs :: splitComma ys := by
  induction xs with
  | nil => simp [splitComma]
  | cons c rest ih =>
    rw [List.cons_append, splitComma, if_neg (h c (List.mem_cons_self c rest)),
      ih (fun e he => h e (List.mem_cons_of_mem c he))]

/-- Claim C9: round trip of the actuator encoding.  Serialising the pair
`(41, 67)` as `FanController.set_fan_speed` does produces exactly `"41,67"`,
and for every pair of integer duties, reading the serialised payload back
through `FanController.get_fan_speed` recovers the pair. -/
theorem claim9_roundtrip :
    fan_value 41 67 = "41,67".toList ∧
      ∀ cpu gpu : ℤ, get_fan_speed (some (fan_value cpu gpu)) =
        Except.ok (some (cpu, gpu)) := by
  constructor
  · rfl
  · intro cpu gpu
    have hns : ∀ c ∈ fan_value cpu gpu, pyIsSpace c = false := by
      intro c hc
      rcases List.mem_append.mp hc with hc1 | hc2
      · exact (mem_intChars cpu c hc1).1
      · rcases List.mem_cons.mp hc2 with rfl | hc3
        · decide
        · exact (mem_intChars gpu c hc3).1
    have h1 : pyStrip (intChars cpu ++ ',' :: intChars gpu) =
        intChars cpu ++ ',' :: intChars gpu := pyStrip_eq_self hns
    have h2 : splitComma (intChars cpu ++ ',' :: intChars gpu) =
        [intChars cpu, intChars gpu] := by
      rw [splitComma_append (intChars gpu) (fun c hc => (mem_intChars cpu c hc).2),
        splitComma_no_comma (fun c hc => (mem_intChars gpu c hc).2)]
    show get_fan_speed (some (intChars cpu ++ ',' :: intChars gpu)) = _
    simp only [get_fan_speed]
    rw [h1, h2]
    show (match pyInt (intChars cpu) with
      | none => Except.ok none
      | some x =>
        match pyInt (intChars gpu) with
        | none => Except.ok none
        | some y => Except.ok (some (x, y))) = Except.ok (some (cpu, gpu))
    rw [pyInt_intChars, pyInt_intChars]
